import Mathlib

/-!
Shallow embedding of the conversational core of `src/bot.py`
(class `SimpleSanskritBot`): the per-user bounded conversation store and
the request/response orchestration of `call_model`, plus
`clear_conversation`.  The remote endpoint is modelled by an `Outcome`
value describing how the single `requests.post` call (and the subsequent
response handling) would have behaved.
-/

namespace SanskritBot

/-- Roles of chat turns, as used in the JSON messages of `bot.py`. -/
inductive Role where
  | system
  | user
  | assistant
deriving DecidableEq

/-- One chat message: a `role`/`content` dict in `bot.py`. -/
structure Turn where
  role : Role
  content : String
deriving DecidableEq

/-- One element of the `choices` array of a parsed 2xx response body;
`content` stands for `choices[i].message.content`. -/
structure Choice where
  content : String
deriving DecidableEq

/-- Outcome of the remote call in `call_model` (lines 62-69 of bot.py):
`ok body` is a 2xx response whose parsed JSON body has the given
`choices` array (`none` when the key is absent), `timeout` is
`requests.exceptions.Timeout`, `requestError` is
`requests.exceptions.RequestException` (connection errors and the
non-2xx statuses raised by `raise_for_status`), and `otherError` is any
other exception. -/
inductive Outcome where
  | ok (choices : Option (List Choice))
  | timeout
  | requestError (msg : String)
  | otherError (msg : String)
deriving DecidableEq

/-- The process-wide `self.user_conversations` dict: user id to history;
`none` means the key is absent. -/
abbrev Store := Nat → Option (List Turn)

/-- The store at process start: `self.user_conversations = {}`. -/
def emptyStore : Store := fun _ => none

/-- Writing `self.user_conversations[user_id] = h`. -/
def Store.update (s : Store) (user_id : Nat) (h : List Turn) : Store :=
  fun v => if v = user_id then some h else s v

/-- Reading a history: the empty sequence for an unseen user (lazy init
at lines 30-31 of bot.py makes the two indistinguishable afterwards). -/
def getHistory (s : Store) (user_id : Nat) : List Turn :=
  (s user_id).getD []

/-- The fixed system prompt of bot.py line 44. -/
def SYSTEM_PROMPT : String :=
  "You are a Sanskrit expert. Answer questions directly and concisely."

/-- The fixed model identifier of bot.py line 24. -/
def MODEL_ID : String := "meta-llama/llama-4-maverick:free"

/-- Lines 38-39 of bot.py: `if len(h) > 10: h = h[-10:]` (keep the last
10 entries). -/
def truncTurns (l : List Turn) : List Turn :=
  if l.length > 10 then l.drop (l.length - 10) else l

/-- Lines 30-39 of bot.py: lazy init, append the user turn, then
truncate to the most recent 10 entries. -/
def userAppendStep (s : Store) (user_id : Nat) (question : String) : List Turn :=
  truncTurns (getHistory s user_id ++ [{ role := Role.user, content := question }])

/-- The outbound request of lines 41-67 of bot.py: the payload `data`
(model, messages, max_tokens) together with the `timeout=30` argument
of `requests.post`. -/
structure OutboundRequest where
  model : String
  messages : List Turn
  max_tokens : Nat
  timeout : Nat
deriving DecidableEq

/-- What one invocation of `call_model` produces: the new store, the
returned string, and the outbound request it sent. -/
structure CallResult where
  store : Store
  reply : String
  request : OutboundRequest

/-- `SimpleSanskritBot.call_model` (bot.py lines 27-86).  The user turn
is appended and the history truncated before the request is built; on a
2xx body with a nonempty `choices` array the first choice is appended
as the assistant turn and returned; every other outcome returns an
error string and leaves the history as of the user-turn append. -/
def call_model (s : Store) (user_id : Nat) (question : String) (o : Outcome) : CallResult :=
  let hist := userAppendStep s user_id question
  let s1 := Store.update s user_id hist
  let req : OutboundRequest :=
    { model := MODEL_ID
      messages := { role := Role.system, content := SYSTEM_PROMPT } :: hist
      max_tokens := 1000
      timeout := 30 }
  match o with
  | Outcome.ok (some (c :: _)) =>
      { store := Store.update s1 user_id
          (hist ++ [{ role := Role.assistant, content := c.content }])
        reply := c.content
        request := req }
  | Outcome.ok _ =>
      { store := s1, reply := "Error: Unexpected API response", request := req }
  | Outcome.timeout =>
      { store := s1, reply := "Error: Request timeout. Please try again.", request := req }
  | Outcome.requestError e =>
      { store := s1, reply := "Error: API request failed: " ++ e, request := req }
  | Outcome.otherError e =>
      { store := s1, reply := "Error: " ++ e, request := req }

/-- `SimpleSanskritBot.clear_conversation` (bot.py lines 88-91): reset
the history to `[]` when the user has an entry, do nothing otherwise. -/
def clear_conversation (s : Store) (user_id : Nat) : Store :=
  match s user_id with
  | some _ => Store.update s user_id []
  | none => s

/-- The condition of line 71 of bot.py, as a predicate on the outcome:
the call reached a 2xx body whose `choices` array is present and
nonempty. -/
def successOutcome : Outcome → Bool
  | Outcome.ok (some (_ :: _)) => true
  | _ => false

/-- One invocation of `call_model`, for stating trace properties. -/
structure Call where
  user_id : Nat
  question : String
  outcome : Outcome

/-- Run a sequence of `call_model` invocations from a store. -/
def applyCalls (s : Store) : List Call → Store
  | [] => s
  | c :: cs => applyCalls ((call_model s c.user_id c.question c.outcome).store) cs

/-- The turns one invocation inserts into the history of user `u`:
the user turn, plus the assistant turn on success; nothing for calls of
other users. -/
def callInserts (u : Nat) (c : Call) : List Turn :=
  if c.user_id = u then
    match c.outcome with
    | Outcome.ok (some (ch :: _)) =>
        [{ role := Role.user, content := c.question },
         { role := Role.assistant, content := ch.content }]
    | _ => [{ role := Role.user, content := c.question }]
  else []

/-- All turns a sequence of invocations inserts for user `u`, oldest
first. -/
def allInserts (u : Nat) (calls : List Call) : List Turn :=
  (calls.map (callInserts u)).flatten

/-! ### Basic lemmas about the store and one call -/

theorem Store.update_self (s : Store) (u : Nat) (h : List Turn) :
    Store.update s u h u = some h := by
  simp [Store.update]

theorem Store.update_other (s : Store) (u v : Nat) (h : List Turn) (hv : v ≠ u) :
    Store.update s u h v = s v := by
  simp [Store.update, hv]

theorem truncTurns_suffix (l : List Turn) : truncTurns l <:+ l := by
  unfold truncTurns
  split
  · exact List.drop_suffix _ _
  · exact List.suffix_refl _

theorem truncTurns_length (l : List Turn) : (truncTurns l).length ≤ 10 := by
  unfold truncTurns
  split
  · simp
    omega
  · omega

theorem userAppendStep_length (s : Store) (u : Nat) (q : String) :
    (userAppendStep s u q).length ≤ 10 :=
  truncTurns_length _

theorem userAppendStep_suffix (s : Store) (u : Nat) (q : String) :
    userAppendStep s u q <:+ getHistory s u ++ [{ role := Role.user, content := q }] :=
  truncTurns_suffix _

theorem userAppendStep_getLast (s : Store) (u : Nat) (q : String) :
    (userAppendStep s u q).getLast? = some { role := Role.user, content := q } := by
  unfold userAppendStep truncTurns
  split
  · rw [List.drop_append_of_le_length (by simp)]
    exact List.getLast?_concat _
  · exact List.getLast?_concat _

theorem call_model_store_other (s : Store) (u v : Nat) (q : String) (o : Outcome)
    (hv : v ≠ u) : (call_model s u q o).store v = s v := by
  cases o with
  | ok body =>
      rcases body with _ | (_ | ⟨c, cs⟩) <;> simp [call_model, Store.update, hv]
  | timeout => simp [call_model, Store.update, hv]
  | requestError e => simp [call_model, Store.update, hv]
  | otherError e => simp [call_model, Store.update, hv]

theorem call_model_store_err (s : Store) (u : Nat) (q : String) (o : Outcome)
    (h : successOutcome o = false) :
    getHistory (call_model s u q o).store u = userAppendStep s u q := by
  cases o with
  | ok body =>
      rcases body with _ | (_ | ⟨c, cs⟩)
      · simp [call_model, getHistory, Store.update]
      · simp [call_model, getHistory, Store.update]
      · simp [successOutcome] at h
  | timeout => simp [call_model, getHistory, Store.update]
  | requestError e => simp [call_model, getHistory, Store.update]
  | otherError e => simp [call_model, getHistory, Store.update]

theorem call_model_store_ok (s : Store) (u : Nat) (q : String) (c : Choice)
    (cs : List Choice) :
    getHistory (call_model s u q (Outcome.ok (some (c :: cs)))).store u =
      userAppendStep s u q ++ [{ role := Role.assistant, content := c.content }] := by
  simp [call_model, getHistory, Store.update]

theorem call_model_request_eq (s : Store) (u : Nat) (q : String) (o : Outcome) :
    (call_model s u q o).request =
      { model := MODEL_ID
        messages := { role := Role.system, content := SYSTEM_PROMPT } :: userAppendStep s u q
        max_tokens := 1000
        timeout := 30 } := by
  cases o with
  | ok body => rcases body with _ | (_ | ⟨c, cs⟩) <;> rfl
  | timeout => rfl
  | requestError e => rfl
  | otherError e => rfl

theorem successOutcome_eq_true {o : Outcome} (h : successOutcome o = true) :
    ∃ c cs, o = Outcome.ok (some (c :: cs)) := by
  cases o with
  | ok body =>
      rcases body with _ | (_ | ⟨c, cs⟩)
      · simp [successOutcome] at h
      · simp [successOutcome] at h
      · exact ⟨c, cs, rfl⟩
  | timeout => simp [successOutcome] at h
  | requestError e => simp [successOutcome] at h
  | otherError e => simp [successOutcome] at h

theorem suffix_append_same {l₁ l₂ : List Turn} (x : List Turn) (h : l₁ <:+ l₂) :
    l₁ ++ x <:+ l₂ ++ x := by
  obtain ⟨t, rfl⟩ := h
  exact ⟨t, (List.append_assoc t l₁ x).symm⟩

theorem mem_userAppendStep {s : Store} {u : Nat} {q : String} {t : Turn}
    (h : t ∈ userAppendStep s u q) :
    t ∈ getHistory s u ∨ t = { role := Role.user, content := q } := by
  unfold userAppendStep at h
  have hsub : t ∈ getHistory s u ++ [{ role := Role.user, content := q }] :=
    (truncTurns_suffix _).subset h
  rcases List.mem_append.mp hsub with h1 | h2
  · exact Or.inl h1
  · exact Or.inr (by simpa using h2)

/-! ### Trace lemmas: one call, then sequences of calls -/

theorem call_suffix (s : Store) (u : Nat) (c : Call) :
    getHistory (call_model s c.user_id c.question c.outcome).store u <:+
      getHistory s u ++ callInserts u c := by
  obtain ⟨cu, cq, co⟩ := c
  by_cases hu : cu = u
  · subst hu
    cases hs : successOutcome co with
    | false =>
        rw [call_model_store_err _ _ _ _ hs]
        have hins : callInserts cu ⟨cu, cq, co⟩ = [{ role := Role.user, content := cq }] := by
          cases co with
          | ok body =>
              rcases body with _ | (_ | ⟨ch, tl⟩)
              · simp [callInserts]
              · simp [callInserts]
              · simp [successOutcome] at hs
          | timeout => simp [callInserts]
          | requestError e => simp [callInserts]
          | otherError e => simp [callInserts]
        rw [hins]
        exact userAppendStep_suffix _ _ _
    | true =>
        obtain ⟨ch, tl, rfl⟩ := successOutcome_eq_true hs
        rw [call_model_store_ok]
        have hins : callInserts cu ⟨cu, cq, Outcome.ok (some (ch :: tl))⟩ =
            [{ role := Role.user, content := cq },
             { role := Role.assistant, content := ch.content }] := by
          simp [callInserts]
        rw [hins]
        have h2 := suffix_append_same [{ role := Role.assistant, content := ch.content }]
          (userAppendStep_suffix s cu cq)
        simpa [List.append_assoc] using h2
  · have hins : callInserts u ⟨cu, cq, co⟩ = [] := by simp [callInserts, hu]
    rw [hins, List.append_nil]
    unfold getHistory
    rw [call_model_store_other s cu u cq co (fun hh => hu hh.symm)]

theorem applyCalls_suffix (u : Nat) (calls : List Call) :
    ∀ s : Store, getHistory (applyCalls s calls) u <:+ getHistory s u ++ allInserts u calls := by
  induction calls with
  | nil => intro s; simp [applyCalls, allInserts]
  | cons c cs ih =>
      intro s
      have h1 := ih ((call_model s c.user_id c.question c.outcome).store)
      have h2 := suffix_append_same (allInserts u cs) (call_suffix s u c)
      have h3 := h1.trans h2
      simpa [applyCalls, allInserts, List.append_assoc] using h3

theorem call_length (s : Store) (u : Nat) (c : Call)
    (h : (getHistory s u).length ≤ 11) :
    (getHistory (call_model s c.user_id c.question c.outcome).store u).length ≤ 11 := by
  obtain ⟨cu, cq, co⟩ := c
  dsimp only
  by_cases hu : cu = u
  · subst hu
    cases hs : successOutcome co with
    | false =>
        rw [call_model_store_err _ _ _ _ hs]
        have := userAppendStep_length s cu cq
        omega
    | true =>
        obtain ⟨ch, tl, rfl⟩ := successOutcome_eq_true hs
        rw [call_model_store_ok]
        have := userAppendStep_length s cu cq
        simp
        omega
  · unfold getHistory
    rw [call_model_store_other s cu u cq co (fun hh => hu hh.symm)]
    exact h

theorem applyCalls_length (u : Nat) (calls : List Call) :
    ∀ s : Store, (getHistory s u).length ≤ 11 →
      (getHistory (applyCalls s calls) u).length ≤ 11 := by
  induction calls with
  | nil => intro s h; exact h
  | cons c cs ih => intro s h; exact ih _ (call_length s u c h)

/-! ### Clear lemmas -/

theorem clear_getHistory (s : Store) (u : Nat) :
    getHistory (clear_conversation s u) u = [] := by
  unfold clear_conversation
  cases hs : s u with
  | none => simp [getHistory, hs]
  | some h => simp [getHistory, Store.update]

theorem clear_other (s : Store) (u v : Nat) (hv : v ≠ u) :
    clear_conversation s u v = s v := by
  unfold clear_conversation
  cases hs : s u with
  | none => rfl
  | some h => simp [Store.update, hv]

theorem clear_idem (s : Store) (u : Nat) :
    clear_conversation (clear_conversation s u) u = clear_conversation s u := by
  funext v
  cases hs : s u with
  | none => simp [clear_conversation, hs]
  | some h =>
      simp [clear_conversation, hs, Store.update]
      intro hv
      simp [hv]

/-! ### Reachable states and the no-system-turn invariant -/

/-- Stores reachable from process start by the two mutators of bot.py:
`call_model` (any user, question, and endpoint outcome) and
`clear_conversation`. -/
inductive Reachable : Store → Prop where
  | init : Reachable emptyStore
  | call (s : Store) (u : Nat) (q : String) (o : Outcome) :
      Reachable s → Reachable (call_model s u q o).store
  | clear (s : Store) (u : Nat) : Reachable s → Reachable (clear_conversation s u)

/-- No stored turn of any user has the system role. -/
def noSystemTurn (s : Store) : Prop :=
  ∀ u : Nat, ∀ t ∈ getHistory s u, t.role ≠ Role.system

theorem noSystem_call (s : Store) (u : Nat) (q : String) (o : Outcome)
    (h : noSystemTurn s) : noSystemTurn (call_model s u q o).store := by
  intro v t ht
  by_cases hv : v = u
  · subst hv
    cases hs : successOutcome o with
    | false =>
        rw [call_model_store_err _ _ _ _ hs] at ht
        rcases mem_userAppendStep ht with h1 | rfl
        · exact h v t h1
        · simp
    | true =>
        obtain ⟨c, cs, rfl⟩ := successOutcome_eq_true hs
        rw [call_model_store_ok] at ht
        rcases List.mem_append.mp ht with h1 | h2
        · rcases mem_userAppendStep h1 with h3 | rfl
          · exact h v t h3
          · simp
        · have ht2 : t = { role := Role.assistant, content := c.content } := by
            simpa using h2
          subst ht2
          simp
  · unfold getHistory at ht
    rw [call_model_store_other s u v q o hv] at ht
    exact h v t ht

theorem reachable_noSystem {s : Store} (h : Reachable s) : noSystemTurn s := by
  induction h with
  | init =>
      intro u t ht
      simp [getHistory, emptyStore] at ht
  | call s2 u q o hs ih => exact noSystem_call s2 u q o ih
  | clear s2 u hs ih =>
      intro v t ht
      by_cases hv : v = u
      · subst hv
        rw [clear_getHistory] at ht
        simp at ht
      · unfold getHistory at ht
        rw [clear_other s2 u v hv] at ht
        exact ih v t ht

/-! ### Claim theorems -/

/-- Claim C1 (amended): for every sequence of call_model invocations
from the initial store, each stored history is a suffix of the turns
inserted for that user — the retained entries are exactly the most
recent insertions in their original order — and its length is at most
MAX_TURNS + 1 = 11, not 10 as claimed, because the assistant-reply
append is not followed by truncation; immediately after the user-turn
append, which does truncate, the length is at most MAX_TURNS = 10. -/
theorem history_bounded_and_suffix_of_inserts :
    (∀ calls : List Call, ∀ u : Nat,
        (getHistory (applyCalls emptyStore calls) u).length ≤ 11 ∧
        getHistory (applyCalls emptyStore calls) u <:+ allInserts u calls) ∧
    (∀ s : Store, ∀ u : Nat, ∀ q : String, (userAppendStep s u q).length ≤ 10) := by
  refine ⟨fun calls u => ⟨?_, ?_⟩, fun s u q => userAppendStep_length s u q⟩
  · exact applyCalls_length u calls emptyStore (by simp [getHistory, emptyStore])
  · have h := applyCalls_suffix u calls emptyStore
    simpa [getHistory, emptyStore] using h

/-- A call whose outcome is a 2xx response with a single choice. -/
def okCall : Call :=
  { user_id := 0, question := "q", outcome := Outcome.ok (some [{ content := "a" }]) }

/-- Claim C1 (counterexample): after six consecutive successful calls
the stored history of user 0 has length 11, refuting the claimed bound
of MAX_TURNS = 10 after every append. -/
theorem history_length_eleven_after_six_successes :
    ¬ ((getHistory (applyCalls emptyStore
        [okCall, okCall, okCall, okCall, okCall, okCall]) 0).length ≤ 10) := by
  decide

/-- Claim C2: on every non-success outcome of call_model (timeout,
transport or HTTP failure, malformed response, any other exception) the
history of the calling user becomes exactly the step-1 user-turn
append, whose last entry is the user turn with the question; no
assistant turn and no error text is appended. -/
theorem error_paths_leave_only_user_turn (s : Store) (u : Nat) (q : String)
    (o : Outcome) (h : successOutcome o = false) :
    getHistory (call_model s u q o).store u = userAppendStep s u q ∧
    (userAppendStep s u q).getLast? = some { role := Role.user, content := q } :=
  ⟨call_model_store_err s u q o h, userAppendStep_getLast s u q⟩

/-- Witness for claim C2 at a concrete input: a timed-out call for user
0 from the empty store. -/
theorem error_paths_leave_only_user_turn_witness :
    successOutcome Outcome.timeout = false ∧
    (getHistory (call_model emptyStore 0 "Q" Outcome.timeout).store 0 =
        userAppendStep emptyStore 0 "Q" ∧
      (userAppendStep emptyStore 0 "Q").getLast? =
        some { role := Role.user, content := "Q" }) :=
  ⟨rfl, error_paths_leave_only_user_turn emptyStore 0 "Q" Outcome.timeout rfl⟩

/-- Claim C3 (counterexample): on a timeout, call_model does not return
the literal string of the claim; the return value carries the uniform
classification marker in front. -/
theorem timeout_reply_counterexample :
    (call_model emptyStore 0 "Q" Outcome.timeout).reply ≠
      "Request timeout. Please try again." := by
  decide

/-- Claim C3 (amended): when the remote call raises a timeout,
call_model returns the literal string "Error: Request timeout. Please
try again." — the claimed text preceded by the uniform "Error: "
classification marker — and the history of the user holds the user turn
for the question as its last entry and no assistant turn. -/
theorem timeout_reply_and_history (s : Store) (u : Nat) (q : String) :
    (call_model s u q Outcome.timeout).reply =
        "Error: Request timeout. Please try again." ∧
    getHistory (call_model s u q Outcome.timeout).store u = userAppendStep s u q ∧
    (userAppendStep s u q).getLast? = some { role := Role.user, content := q } :=
  ⟨rfl, call_model_store_err s u q Outcome.timeout rfl, userAppendStep_getLast s u q⟩

/-- Claim C4: for a user with no prior history, a 2xx response with at
least one choice makes call_model append exactly two turns in order —
the user turn with the question, then an assistant turn whose content
is the message content of the first choice — and return that content. -/
theorem fresh_user_success_two_turns (s : Store) (u : Nat) (q : String)
    (c : Choice) (cs : List Choice) (h : getHistory s u = []) :
    getHistory (call_model s u q (Outcome.ok (some (c :: cs)))).store u =
      [{ role := Role.user, content := q },
       { role := Role.assistant, content := c.content }] ∧
    (call_model s u q (Outcome.ok (some (c :: cs)))).reply = c.content := by
  constructor
  · rw [call_model_store_ok]
    unfold userAppendStep truncTurns
    rw [h]
    simp
  · rfl

/-- Witness for claim C4 at a concrete input: user 7, unseen before,
with a single-choice stub response. -/
theorem fresh_user_success_two_turns_witness :
    getHistory emptyStore 7 = [] ∧
    (getHistory (call_model emptyStore 7 "What is Sanskrit?"
          (Outcome.ok (some [{ content := "an ancient language" }]))).store 7 =
        [{ role := Role.user, content := "What is Sanskrit?" },
         { role := Role.assistant, content := "an ancient language" }] ∧
      (call_model emptyStore 7 "What is Sanskrit?"
          (Outcome.ok (some [{ content := "an ancient language" }]))).reply =
        "an ancient language") :=
  ⟨rfl, fresh_user_success_two_turns emptyStore 7 "What is Sanskrit?"
      { content := "an ancient language" } [] rfl⟩

/-- Claim C5: every invocation of call_model sends an outbound request
whose message list is the fixed system-prompt turn followed by the
post-truncation history snapshot of the calling user, with the fixed
model identifier, max_tokens = 1000, and a 30-unit timeout. -/
theorem outbound_request_shape (s : Store) (u : Nat) (q : String) (o : Outcome) :
    (call_model s u q o).request.messages =
        { role := Role.system, content := SYSTEM_PROMPT } :: userAppendStep s u q ∧
    (call_model s u q o).request.model = MODEL_ID ∧
    (call_model s u q o).request.max_tokens = 1000 ∧
    (call_model s u q o).request.timeout = 30 := by
  rw [call_model_request_eq]
  exact ⟨rfl, rfl, rfl, rfl⟩

/-- Claim C6: clearing a conversation yields the empty history for
every prior store state, clearing twice equals clearing once, and
clearing is a total no-op success for a user with no prior entry. -/
theorem clear_empties_history_and_idempotent :
    (∀ s : Store, ∀ u : Nat, getHistory (clear_conversation s u) u = []) ∧
    (∀ s : Store, ∀ u : Nat,
        clear_conversation (clear_conversation s u) u = clear_conversation s u) ∧
    (∀ u : Nat, clear_conversation emptyStore u = emptyStore) :=
  ⟨clear_getHistory, clear_idem, fun _ => rfl⟩

/-- Claim C7: in every reachable store state, no stored turn of any
user has the system role; the system prompt exists only in the
ephemeral outbound request. -/
theorem no_system_turn_stored (s : Store) (hr : Reachable s) (u : Nat) (t : Turn)
    (ht : t ∈ getHistory s u) : t.role ≠ Role.system :=
  reachable_noSystem hr u t ht

/-- Witness for claim C7 at a concrete input: the store after one
timed-out call, whose only stored turn is the user question. -/
theorem no_system_turn_stored_witness :
    ({ role := Role.user, content := "Q" } : Turn) ∈
        getHistory (call_model emptyStore 1 "Q" Outcome.timeout).store 1 ∧
    ({ role := Role.user, content := "Q" } : Turn).role ≠ Role.system :=
  ⟨by decide, no_system_turn_stored _
      (Reachable.call emptyStore 1 "Q" Outcome.timeout Reachable.init) 1
      { role := Role.user, content := "Q" } (by decide)⟩

/-- Claim C8: a 2xx response whose body lacks a choices array, or whose
choices array is empty, makes call_model return the MalformedResponse
message "Unexpected API response" under the uniform "Error: "
classification marker, and append no assistant turn. -/
theorem malformed_response_error (s : Store) (u : Nat) (q : String) :
    ((call_model s u q (Outcome.ok none)).reply =
        "Error: " ++ "Unexpected API response" ∧
      getHistory (call_model s u q (Outcome.ok none)).store u =
        userAppendStep s u q) ∧
    ((call_model s u q (Outcome.ok (some []))).reply =
        "Error: " ++ "Unexpected API response" ∧
      getHistory (call_model s u q (Outcome.ok (some []))).store u =
        userAppendStep s u q) := by
  refine ⟨⟨?_, call_model_store_err s u q (Outcome.ok none) rfl⟩,
          ?_, call_model_store_err s u q (Outcome.ok (some [])) rfl⟩
  · show "Error: Unexpected API response" = "Error: " ++ "Unexpected API response"
    decide
  · show "Error: Unexpected API response" = "Error: " ++ "Unexpected API response"
    decide

/-- Claim C9: a call_model invocation for user u, with any endpoint
outcome, and a clear_conversation for user u both leave the stored
history of every other user v unchanged. -/
theorem other_user_history_unchanged (s : Store) (u v : Nat) (q : String)
    (o : Outcome) (h : v ≠ u) :
    getHistory (call_model s u q o).store v = getHistory s v ∧
    getHistory (clear_conversation s u) v = getHistory s v := by
  constructor
  · unfold getHistory
    rw [call_model_store_other s u v q o h]
  · unfold getHistory
    rw [clear_other s u v h]

/-- Witness for claim C9 at a concrete input: operations for user 0
observed from user 1. -/
theorem other_user_history_unchanged_witness :
    (1 : Nat) ≠ 0 ∧
    (getHistory (call_model emptyStore 0 "Q" Outcome.timeout).store 1 =
        getHistory emptyStore 1 ∧
      getHistory (clear_conversation emptyStore 0) 1 = getHistory emptyStore 1) :=
  ⟨by decide,
    other_user_history_unchanged emptyStore 0 1 "Q" Outcome.timeout (by decide)⟩

/-- Claim C10: call_model is total over endpoint outcomes — it is a
function producing a string for every outcome — and on every
non-success outcome the returned string is "Error: " followed by the
classified message, so classified errors are marked at the return
value. -/
theorem non_success_reply_classified (s : Store) (u : Nat) (q : String)
    (o : Outcome) (h : successOutcome o = false) :
    ∃ r : String, (call_model s u q o).reply = "Error: " ++ r := by
  cases o with
  | ok body =>
      rcases body with _ | (_ | ⟨c, cs⟩)
      · refine ⟨"Unexpected API response", ?_⟩
        show "Error: Unexpected API response" = "Error: " ++ "Unexpected API response"
        decide
      · refine ⟨"Unexpected API response", ?_⟩
        show "Error: Unexpected API response" = "Error: " ++ "Unexpected API response"
        decide
      · simp [successOutcome] at h
  | timeout =>
      refine ⟨"Request timeout. Please try again.", ?_⟩
      show "Error: Request timeout. Please try again." =
        "Error: " ++ "Request timeout. Please try again."
      decide
  | requestError e =>
      refine ⟨"API request failed: " ++ e, ?_⟩
      show "Error: API request failed: " ++ e =
        "Error: " ++ ("API request failed: " ++ e)
      rw [← String.append_assoc]
      congr 1
  | otherError e => exact ⟨e, rfl⟩

/-- Witness for claim C10 at a concrete input: a timed-out call. -/
theorem non_success_reply_classified_witness :
    successOutcome Outcome.timeout = false ∧
    ∃ r : String,
      (call_model emptyStore 0 "Q" Outcome.timeout).reply = "Error: " ++ r :=
  ⟨rfl, non_success_reply_classified emptyStore 0 "Q" Outcome.timeout rfl⟩

end SanskritBot
